import Mathlib

/-!
Verification development for the node-red-mcp-server repository.

Shallow embedding of the two core subsystems:
  * the authentication / token-lifecycle manager (`src/lib/auth.mjs`,
    class `NodeRedAuth`, plus the header selection of `callNodeRed` in
    `src/lib/utils.mjs`), and
  * the incremental layout engine for flow node placement
    (`src/lib/tools/flows.mjs`, classes `CoordinateManager` and
    `AutoLayoutManager`, and the helpers `validateFlowStructure` and
    `mergeFlows`).

JavaScript numbers that the code uses as pixel coordinates and timestamps
are modelled as `Int`; the JS `Set` of `"x,y"` strings is modelled as an
insertion-ordered duplicate-free `List Coord`; JS `Map`s are modelled as
insertion-ordered association lists; `async` functions that can throw are
modelled as functions into `Except String`, with the network outcome of an
HTTP exchange passed in as an explicit argument.
-/

namespace NodeRed

/-! ## Authentication manager (`src/lib/auth.mjs`) -/

/-- Server configuration relevant to authentication.  A JS-falsy (absent or
empty) string field is modelled as `""`. -/
structure Config where
  nodeRedUrl : String := ""
  nodeRedToken : String := ""
  nodeRedUsername : String := ""
  nodeRedPassword : String := ""
deriving Repr, DecidableEq

/-- Cached credential stored by `NodeRedAuth` in `this.tokenData`. -/
structure TokenData where
  token : String
  tokenType : String
  expiresAt : Int
  obtainedAt : Int
  expiresIn : Int
deriving Repr, DecidableEq

/-- Mutable state of a `NodeRedAuth` instance: `this.tokenData`, which is
`null` right after construction. -/
abbrev AuthState := Option TokenData

/-- State of a freshly constructed `NodeRedAuth` (constructor sets
`this.tokenData = null`). -/
def authInit : AuthState := none

/-- `NodeRedAuth.isTokenValid`: false when no token data or a falsy token
string is cached, otherwise `now < expiresAt - 60_000` (60 s buffer). -/
def isTokenValid (st : AuthState) (now : Int) : Bool :=
  match st with
  | none => false
  | some td =>
    if td.token = "" then false
    else decide (now < td.expiresAt - 60 * 1000)

/-- Outcome of the `axios.post` to `{baseUrl}/auth/token`, passed in
explicitly.  `success` carries the response body fields `access_token`,
`expires_in` and `token_type` (falsy strings modelled as `""`);
`httpError` is a rejected promise with `error.response.status`;
`connRefused` is `error.code === 'ECONNREFUSED'`; `otherError` is any
other rejection with its message. -/
inductive HttpOutcome where
  | success (access_token : String) (expires_in : Int) (token_type : String)
  | httpError (status : Nat) (statusText : String)
  | connRefused
  | otherError (message : String)
deriving Repr, DecidableEq

/-- Error message thrown by `refreshToken` when username or password is
missing. -/
def configErrMsg : String :=
  "Username and password are required for token authentication"

/-- Error message for an HTTP 401 from the token endpoint. -/
def invalidCredMsg : String :=
  "Invalid username or password for Node-RED authentication"

/-- Error message for an HTTP 404 from the token endpoint. -/
def endpointMissingMsg : String :=
  "Node-RED authentication endpoint not found. Check if adminAuth is enabled."

/-- `NodeRedAuth.refreshToken`: on success replaces the cached token data
wholesale and returns the access token; on any failure leaves the state
untouched and rethrows one of the distinguished error messages.  The
returned pair is (new `this.tokenData`, thrown-or-returned result). -/
def refreshToken (cfg : Config) (st : AuthState) (now : Int)
    (outcome : HttpOutcome) : AuthState × Except String String :=
  if cfg.nodeRedUsername = "" ∨ cfg.nodeRedPassword = "" then
    (st, .error configErrMsg)
  else
    match outcome with
    | .success access_token expires_in token_type =>
      if access_token = "" then
        -- the inner `throw new Error('No access token received ...')` is
        -- caught by the surrounding catch and rethrown with the generic
        -- `Token refresh failed:` prefix (no `.response`, no `.code`)
        (st, .error ("Token refresh failed: No access token received from Node-RED"))
      else
        let td : TokenData :=
          { token := access_token
            tokenType := if token_type = "" then "Bearer" else token_type
            expiresAt := now + expires_in * 1000
            obtainedAt := now
            expiresIn := expires_in }
        (some td, .ok access_token)
    | .httpError status statusText =>
      if status = 401 then (st, .error invalidCredMsg)
      else if status = 404 then (st, .error endpointMissingMsg)
      else (st, .error ("Authentication failed with status " ++ toString status ++ ": " ++ statusText))
    | .connRefused =>
      (st, .error ("Cannot connect to Node-RED at " ++ cfg.nodeRedUrl))
    | .otherError message =>
      (st, .error ("Token refresh failed: " ++ message))

/-- `NodeRedAuth.getValidToken`: a configured static token with no username
wins unconditionally; otherwise the cached token is returned while valid,
else `refreshToken` runs. -/
def getValidToken (cfg : Config) (st : AuthState) (now : Int)
    (outcome : HttpOutcome) : AuthState × Except String String :=
  if cfg.nodeRedToken ≠ "" ∧ cfg.nodeRedUsername = "" then
    (st, .ok cfg.nodeRedToken)
  else if isTokenValid st now then
    match st with
    | some td => (st, .ok td.token)
    | none => (st, .ok "")   -- unreachable: isTokenValid none _ = false
  else
    refreshToken cfg st now outcome

/-- `NodeRedAuth.getAuthHeaders`: wraps `getValidToken`; a falsy token gives
`{}`, otherwise an `Authorization` header with
`this.tokenData?.tokenType || 'Bearer'`. -/
def getAuthHeaders (cfg : Config) (st : AuthState) (now : Int)
    (outcome : HttpOutcome) : AuthState × Except String (List (String × String)) :=
  match getValidToken cfg st now outcome with
  | (st', .error e) => (st', .error e)
  | (st', .ok token) =>
    if token = "" then (st', .ok [])
    else
      let tokenType :=
        match st' with
        | some td => if td.tokenType = "" then "Bearer" else td.tokenType
        | none => "Bearer"
      (st', .ok [("Authorization", tokenType ++ " " ++ token)])

/-- `NodeRedAuth.clearToken`: sets `this.tokenData = null`. -/
def clearToken (_st : AuthState) : AuthState := none

/-- Result of `NodeRedAuth.getTokenStatus` (timestamps left as raw numbers;
the ISO formatting is presentation only). -/
structure TokenStatus where
  hasToken : Bool
  isValid : Bool
  source : String
  expiresAt : Option Int := none
  remainingHours : Option Int := none
  obtainedAt : Option Int := none
deriving Repr, DecidableEq

/-- `NodeRedAuth.getTokenStatus`. -/
def getTokenStatus (cfg : Config) (st : AuthState) (now : Int) : TokenStatus :=
  match st with
  | none =>
    { hasToken := false
      isValid := false
      source := if cfg.nodeRedToken ≠ "" then "static" else "none" }
  | some td =>
    { hasToken := true
      isValid := isTokenValid st now
      source := "dynamic"
      expiresAt := some td.expiresAt
      remainingHours := some (max 0 ((td.expiresAt - now) / (1000 * 60 * 60)))
      obtainedAt := some td.obtainedAt }

/-- Header selection of `callNodeRed` (`src/lib/utils.mjs`): the auth
manager is consulted only when both username and password are configured;
else a configured static token is used directly; else the headers stay
`{}` (anonymous upstream). -/
def callNodeRedHeaders (cfg : Config) (st : AuthState) (now : Int)
    (outcome : HttpOutcome) : Except String (List (String × String)) :=
  if cfg.nodeRedUsername ≠ "" ∧ cfg.nodeRedPassword ≠ "" then
    match getAuthHeaders cfg st now outcome with
    | (_, .ok h) => .ok h
    | (_, .error e) => .error ("Authentication failed: " ++ e)
  else if cfg.nodeRedToken ≠ "" then
    .ok [("Authorization", "Bearer " ++ cfg.nodeRedToken)]
  else
    .ok []

/-! ## Coordinate manager (`src/lib/tools/flows.mjs`, class `CoordinateManager`) -/

/-- A canvas coordinate.  The JS code stores occupied positions as strings
`"x,y"` in a `Set`; two strings are equal exactly when the coordinate
pairs are, so a pair is a faithful model. -/
structure Coord where
  x : Int
  y : Int
deriving Repr, DecidableEq

/-- `Set.add` on the occupied-coordinate set: insertion-ordered and
duplicate-free. -/
def addCoord (l : List Coord) (c : Coord) : List Coord :=
  if c ∈ l then l else l ++ [c]

/-- Constructor fields of `CoordinateManager`. -/
structure CoordinateManager where
  gridSize : Int
  nodeWidth : Int
  nodeHeight : Int
deriving Repr, DecidableEq

/-- The default-constructed `CoordinateManager(20, 120, 30)` used by
`AutoLayoutManager`. -/
def CoordinateManager.default : CoordinateManager :=
  { gridSize := 20, nodeWidth := 120, nodeHeight := 30 }

/-- The fixed collision buffer used by `checkCoordinateCollision`. -/
def buffer : Int := 20

/-- `CoordinateManager.checkCoordinateCollision`: rectangle-overlap test of
`(x,y)` against every occupied coordinate, with the node size widened by
the fixed buffer. -/
def checkCoordinateCollision (cm : CoordinateManager) (x y : Int)
    (existingCoords : List Coord) : Bool :=
  existingCoords.any fun c =>
    decide (|x - c.x| < cm.nodeWidth + buffer) &&
    decide (|y - c.y| < cm.nodeHeight + buffer)

/-- Workspace bounds derived from the existing nodes. -/
structure Bounds where
  minX : Int
  maxX : Int
  minY : Int
  maxY : Int
deriving Repr, DecidableEq

/-- Safe zone returned by `CoordinateManager.calculateSafeZone`. -/
structure SafeZone where
  startX : Int
  startY : Int
  nodesPerRow : Nat
  spacingX : Int
  spacingY : Int
deriving Repr, DecidableEq

/-- `CoordinateManager.calculateSafeZone`: the new-node region starts below
the existing workflow (`maxY + 150`), left-aligned at `max(100, minX)`,
with 4 nodes per row and 250/120 px spacing. -/
def calculateSafeZone (bounds : Bounds) : SafeZone :=
  { startX := max 100 bounds.minX
    startY := bounds.maxY + 150
    nodesPerRow := 4
    spacingX := 250
    spacingY := 120 }

/-- The `wires` property of a node: absent, present but not an array
(flagged by validation, ignored by the graph builders), or an array of
per-output target-id arrays. -/
inductive WiresF where
  | absent : WiresF
  | notArray : WiresF
  | arr : List (List String) → WiresF
deriving Repr, DecidableEq

/-- A flow node.  `id` is `""` when the property is absent or empty (both
JS-falsy, treated alike everywhere in this code); `Option` fields model
property presence so that object spread can be embedded faithfully. -/
structure Node where
  id : String := ""
  type : Option String := none
  name : Option String := none
  x : Option Int := none
  y : Option Int := none
  wires : WiresF := .absent
  z : Option String := none
deriving Repr, DecidableEq

/-- The coordinates of the nodes whose `x` and `y` are both numbers, in
node order. -/
def numericPoints (nodes : List Node) : List Coord :=
  nodes.filterMap fun n =>
    match n.x, n.y with
    | some x, some y => some ⟨x, y⟩
    | _, _ => none

/-- The occupied-coordinate set built by
`CoordinateManager.getExistingCoordinates`: each numeric position added to
a `Set` in node order. -/
def coordsOf (nodes : List Node) : List Coord :=
  (numericPoints nodes).foldl addCoord []

/-- The workspace bounds computed by
`CoordinateManager.getExistingCoordinates`: running min/max over the
numeric positions, with the fixed default `(100,100,100,100)` when there
are none (matching the `coords.size === 0` check). -/
def boundsOf (nodes : List Node) : Bounds :=
  match numericPoints nodes with
  | [] => ⟨100, 100, 100, 100⟩
  | p :: ps =>
    ps.foldl
      (fun b q => ⟨min b.minX q.x, max b.maxX q.x, min b.minY q.y, max b.maxY q.y⟩)
      ⟨p.x, p.x, p.y, p.y⟩

/-- `CoordinateManager.autoLayoutPosition`: the fallback position when the
spiral search is exhausted — the safe-zone anchor, or fixed defaults. -/
def autoLayoutPosition (_cm : CoordinateManager) (existingCoords : List Coord)
    (safeZone : Option SafeZone) : Coord :=
  if existingCoords.isEmpty then ⟨100, 100⟩
  else
    match safeZone with
    | some z => ⟨z.startX, z.startY⟩
    | none =>
      let maxX := existingCoords.foldl (fun m c => max m c.x) 0
      let minY := existingCoords.foldl (fun m c => min m c.y) 100
      ⟨maxX + 200, minY⟩

/-- All `(dx, dy)` with `-r ≤ dx, dy ≤ r`, excluding `(0,0)`, in the inner
loop order of the spiral search (dx outer, dy inner). -/
def spiralOffsets (r : Nat) : List (Int × Int) :=
  ((List.range (2 * r + 1)).map (fun i => (i : Int) - r)).flatMap fun dx =>
    ((List.range (2 * r + 1)).map (fun i => (i : Int) - r)).filterMap fun dy =>
      if dx = 0 ∧ dy = 0 then none else some (dx, dy)

/-- The spiral-search candidate positions: for each radius 1..20 the JS
code rescans the whole `(2r+1)×(2r+1)` box, skipping the center.
Candidate order is significant and preserved. -/
def spiralCandidates (cm : CoordinateManager) (px py : Int) : List Coord :=
  ((List.range 20).map (· + 1)).flatMap fun r =>
    (spiralOffsets r).map fun d => ⟨px + d.1 * cm.gridSize, py + d.2 * cm.gridSize⟩

/-- Acceptance test for a spiral candidate: positive coordinates, not above
the safe zone, and collision-free. -/
def spiralOk (cm : CoordinateManager) (existingCoords : List Coord)
    (safeZone : Option SafeZone) (c : Coord) : Bool :=
  !(decide (c.x < 0) || decide (c.y < 0)) &&
  !(match safeZone with
    | some z => decide (c.y < z.startY)
    | none => false) &&
  !checkCoordinateCollision cm c.x c.y existingCoords

/-- `CoordinateManager.findAvailablePosition`: try the safe-zone-clamped
preferred position, then the preferred position, then the bounded spiral
search, finally the `autoLayoutPosition` fallback. -/
def findAvailablePosition (cm : CoordinateManager) (preferredX preferredY : Int)
    (existingCoords : List Coord) (safeZone : Option SafeZone) : Coord :=
  let safeTry : Option Coord :=
    match safeZone with
    | some z =>
      let safeX := if preferredX < z.startX then z.startX else preferredX
      let safeY := if preferredY < z.startY then z.startY else preferredY
      if checkCoordinateCollision cm safeX safeY existingCoords then none
      else some ⟨safeX, safeY⟩
    | none => none
  match safeTry with
  | some c => c
  | none =>
    if !checkCoordinateCollision cm preferredX preferredY existingCoords then
      ⟨preferredX, preferredY⟩
    else
      match (spiralCandidates cm preferredX preferredY).find?
          (spiralOk cm existingCoords safeZone) with
      | some c => c
      | none => autoLayoutPosition cm existingCoords safeZone

/-! ## Layout strategies (`src/lib/tools/flows.mjs`, class `AutoLayoutManager`) -/

/-- Update a node's coordinates in place (`node.x = position.x; node.y =
position.y`). -/
def setNodePos (n : Node) (c : Coord) : Node :=
  { n with x := some c.x, y := some c.y }

/-- The preferred slot for the i-th new node in both `collisionFreeLayout`
and the effective `gridLayout`: row-major placement in the safe zone. -/
def preferredSlot (sz : SafeZone) (i : Nat) : Coord :=
  ⟨sz.startX + ((i % sz.nodesPerRow : Nat) : Int) * sz.spacingX,
   sz.startY + ((i / sz.nodesPerRow : Nat) : Int) * sz.spacingY⟩

/-- The common `nodes.forEach` loop of `collisionFreeLayout` and
`gridLayout`: place each node at its preferred slot resolved through
`findAvailablePosition`, adding each final position to the occupied set. -/
def layoutStep (cm : CoordinateManager) (sz : SafeZone) :
    List Node → Nat → List Coord → List Node × List Coord
  | [], _, coords => ([], coords)
  | n :: rest, i, coords =>
    let p := preferredSlot sz i
    let pos := findAvailablePosition cm p.x p.y coords (some sz)
    let r := layoutStep cm sz rest (i + 1) (addCoord coords pos)
    (setNodePos n pos :: r.1, r.2)

/-- `AutoLayoutManager.collisionFreeLayout`. -/
def collisionFreeLayout (cm : CoordinateManager) (nodes : List Node)
    (existingCoords : List Coord) (safeZone : SafeZone) : List Node × List Coord :=
  layoutStep cm safeZone nodes 0 existingCoords

/-- `AutoLayoutManager.gridLayout`.  The class declares `gridLayout` twice;
in JS the second declaration wins, and its body computes the identical
row-major placement (`i % nodesPerRow`, `i / nodesPerRow` with the safe
zone's spacing) through the same collision routine. -/
def gridLayout (cm : CoordinateManager) (nodes : List Node)
    (existingCoords : List Coord) (safeZone : SafeZone) : List Node × List Coord :=
  layoutStep cm safeZone nodes 0 existingCoords

/-- The final coordinates written into a placed node. -/
def nodePos (n : Node) : Coord :=
  ⟨n.x.getD 0, n.y.getD 0⟩

/-- The bounding boxes of two node positions overlap within the fixed
buffer: the source's rectangle test applied to a single occupied
coordinate. -/
def overlapWithin (cm : CoordinateManager) (c1 c2 : Coord) : Bool :=
  checkCoordinateCollision cm c1.x c1.y [c2]

/-- The row-major placement the layout loop produces when every preferred
slot is free: node `j` of the list goes to slot `k + j`. -/
def placedAt (sz : SafeZone) : Nat → List Node → List Node
  | _, [] => []
  | k, n :: rest => setNodePos n (preferredSlot sz k) :: placedAt sz (k + 1) rest

/-! ### Connection graph and functional chains -/

/-- `Map.get` on an insertion-ordered association list. -/
def aget {κ α : Type} [BEq κ] (m : List (κ × α)) (k : κ) : Option α :=
  (m.find? (fun p => p.1 == k)).map (·.2)

/-- `Map.set` on an insertion-ordered association list: an existing key
keeps its position, a new key is appended. -/
def aset {κ α : Type} [BEq κ] (m : List (κ × α)) (k : κ) (v : α) : List (κ × α) :=
  if m.any (fun p => p.1 == k) then m.map (fun p => if p.1 == k then (k, v) else p)
  else m ++ [(k, v)]

/-- The per-output target arrays of a node's `wires`, empty unless `wires`
is an array (`node.wires && Array.isArray(node.wires)`). -/
def wiresTargets (w : WiresF) : List (List String) :=
  match w with
  | .arr ws => ws
  | _ => []

/-- The ephemeral connection graph built by
`AutoLayoutManager.buildConnectionGraph`. -/
structure ConnGraph where
  outgoing : List (String × List String)
  incoming : List (String × List String)
  nodeMap : List (String × Node)
deriving Repr, DecidableEq

/-- `AutoLayoutManager.buildConnectionGraph`. -/
def buildConnectionGraph (nodes : List Node) : ConnGraph :=
  let outgoing0 := nodes.foldl (fun m n => aset m n.id ([] : List String)) []
  let incoming0 := nodes.foldl (fun m n => aset m n.id ([] : List String)) []
  let nodeMap := nodes.foldl (fun m n => aset m n.id n) []
  let step := fun (g : List (String × List String) × List (String × List String)) (n : Node) =>
    (wiresTargets n.wires).foldl
      (fun g outputArray =>
        outputArray.foldl
          (fun g targetId =>
            let o := if (aget g.1 n.id).isSome
              then aset g.1 n.id (((aget g.1 n.id).getD []) ++ [targetId]) else g.1
            let i := if (aget g.2 targetId).isSome
              then aset g.2 targetId (((aget g.2 targetId).getD []) ++ [n.id]) else g.2
            (o, i))
          g)
      g
  let oi := nodes.foldl step (outgoing0, incoming0)
  ⟨oi.1, oi.2, nodeMap⟩

/-- `String.toLowerCase`. -/
def strLower (s : String) : String := String.mk (s.data.map Char.toLower)

/-- Prefix test on character lists. -/
def listPrefix : List Char → List Char → Bool
  | [], _ => true
  | _ :: _, [] => false
  | p :: ps, c :: cs => if p = c then listPrefix ps cs else false

/-- Substring containment on character lists: the pattern is a prefix of
some suffix. -/
def listIncludes (pat : List Char) : List Char → Bool
  | [] => pat.isEmpty
  | c :: cs => listPrefix pat (c :: cs) || listIncludes pat cs

/-- `String.includes` (substring containment). -/
def strIncludes (s pat : String) : Bool :=
  listIncludes pat.data s.data

/-- `node.type.toLowerCase()` — layout runs only on structurally validated
nodes, whose `type` is present (an absent `type` would already be a
`validateFlowStructure` error before layout is invoked). -/
def typeLower (n : Node) : String := strLower (n.type.getD "")

/-- Recognized trigger node types in `findEntryPoints`. -/
def triggerTypes : List String := ["inject", "http in", "mqtt in", "timer"]

/-- `AutoLayoutManager.findEntryPoints`: nodes with no incoming connections
or a recognized trigger type. -/
def findEntryPoints (nodes : List Node) (g : ConnGraph) : List Node :=
  nodes.filter fun n =>
    let hasNoIncoming :=
      match aget g.incoming n.id with
      | none => true
      | some l => l.isEmpty
    let isTriggerType := triggerTypes.any fun t => strIncludes (typeLower n) t
    hasNoIncoming || isTriggerType

/-- A functional chain as produced by `identifyFunctionalChains`. -/
structure Chain where
  nodes : List Node
  ctype : String
  startNode : Node
  endNodes : List Node
deriving Repr, DecidableEq

/-- `AutoLayoutManager.determineChainType`. -/
def determineChainType (chain : List Node) : String :=
  if chain.length = 1 then "standalone"
  else
    let has := fun (pat : String) => chain.any fun n => strIncludes (typeLower n) pat
    if has "http in" && has "http response" then "http_api"
    else if has "inject" then "trigger_flow"
    else if has "mqtt" then "mqtt_flow"
    else "processing_chain"

/-- `AutoLayoutManager.findChainEndNodes`: chain members with no outgoing
connections. -/
def findChainEndNodes (chain : List Node) (g : ConnGraph) : List Node :=
  chain.filter fun n => ((aget g.outgoing n.id).getD []).isEmpty

/-- The `while (true)` loop of `traceFunctionalChain`.  Every iteration
either stops or adds one previously unvisited id to the visited set, so a
fuel of `nodes.length + 1` (as passed by `identifyFunctionalChains`)
strictly exceeds the number of iterations of any run. -/
def traceLoop (g : ConnGraph) :
    Nat → Node → List Node → List String → List Node × List String
  | 0, _, chain, visited => (chain, visited)
  | fuel + 1, current, chain, visited =>
    match (aget g.outgoing current.id).getD [] with
    | [targetId] =>
      -- a single target: continue the chain when it resolves and is unvisited
      match aget g.nodeMap targetId with
      | some targetNode =>
        if targetId ∈ visited then (chain, visited)
        else traceLoop g fuel targetNode (chain ++ [targetNode]) (visited ++ [targetId])
      | none => (chain, visited)
    | [] => (chain, visited)
    | targets =>
      -- two or more targets: append unvisited branch targets as terminal
      -- members, then end the chain at the branching point
      targets.foldl
        (fun acc targetId =>
          match aget g.nodeMap targetId with
          | some tn =>
            if targetId ∈ acc.2 then acc else (acc.1 ++ [tn], acc.2 ++ [targetId])
          | none => acc)
        (chain, visited)

/-- `AutoLayoutManager.traceFunctionalChain`. -/
def traceFunctionalChain (g : ConnGraph) (startNode : Node) (visited : List String)
    (fuel : Nat) : List Node × List String :=
  traceLoop g fuel startNode [startNode] (visited ++ [startNode.id])

/-- One step of the entry-point loop of `identifyFunctionalChains`: an
already-visited entry is skipped, otherwise its chain is traced and
recorded (the traced chain always starts with the entry node, so the
`chain.length > 0` guard always takes the recording branch). -/
def traceStep (g : ConnGraph) (fuelBase : Nat) (acc : List Chain × List String)
    (entryNode : Node) : List Chain × List String :=
  if entryNode.id ∈ acc.2 then acc
  else
    let tc := traceFunctionalChain g entryNode acc.2 fuelBase
    match tc.1 with
    | c0 :: _ =>
      (acc.1 ++ [{ nodes := tc.1, ctype := determineChainType tc.1,
                   startNode := c0, endNodes := findChainEndNodes tc.1 g }], tc.2)
    | [] => (acc.1, tc.2)

/-- One step of the remaining-nodes loop of `identifyFunctionalChains`:
every node untouched by chain tracing becomes its own standalone
single-node chain. -/
def standaloneStep (acc : List Chain × List String) (n : Node) :
    List Chain × List String :=
  if n.id ∈ acc.2 then acc
  else (acc.1 ++ [{ nodes := [n], ctype := "standalone", startNode := n, endNodes := [n] }],
        acc.2 ++ [n.id])

/-- `AutoLayoutManager.identifyFunctionalChains`: trace a chain from each
unvisited entry point, then turn every remaining unvisited node into a
standalone single-node chain. -/
def identifyFunctionalChains (nodes : List Node) (g : ConnGraph) : List Chain :=
  let entryPoints := findEntryPoints nodes g
  let traced := entryPoints.foldl (traceStep g (nodes.length + 1)) ([], [])
  (nodes.foldl standaloneStep traced).1

/-- `AutoLayoutManager.positionChainAsRow` iterates over the chain's nodes
and calls `this.coordinateManager.findSafePosition(x, y, existingCoords)`
for each.  `CoordinateManager` defines no method of that name (its search
routine is `findAvailablePosition`), so on the first iteration JS raises
a TypeError; with an empty chain the loop body never runs and the given
`startY` is returned unchanged. -/
def positionChainAsRow (chain : Chain) (_startX startY : Int)
    (positioned : List (String × Node)) (existingCoords : List Coord)
    (_nodeSpacing : Int) :
    Except String (List (String × Node) × List Coord × Int) :=
  match chain.nodes with
  | [] => .ok (positioned, existingCoords, startY)
  | _ :: _ =>
    .error "TypeError: this.coordinateManager.findSafePosition is not a function"

/-- `AutoLayoutManager.positionFunctionalChains`: stack the chains as rows
below the safe-zone anchor with 100 px row spacing. -/
def positionFunctionalChains (chains : List Chain) (safeZone : SafeZone)
    (existingCoords : List Coord) : Except String (List Node) := do
  let rowSpacing : Int := 100
  let nodeSpacing : Int := 180
  let r ← chains.foldlM
    (fun (acc : List (String × Node) × List Coord × Int) chain => do
      let rowResult ← positionChainAsRow chain safeZone.startX acc.2.2 acc.1 acc.2.1 nodeSpacing
      pure (rowResult.1, rowResult.2.1, rowResult.2.2 + rowSpacing))
    ([], existingCoords, safeZone.startY)
  pure (r.1.map (·.2))

/-- `AutoLayoutManager.semanticArticleLayout`. -/
def semanticArticleLayout (nodes : List Node) (existingCoords : List Coord)
    (safeZone : SafeZone) : Except String (List Node) :=
  let g := buildConnectionGraph nodes
  let chains := identifyFunctionalChains nodes g
  positionFunctionalChains chains safeZone existingCoords

/-! ### Dagre left-right (hierarchical) layout -/

/-- Per-node entry of the dependency graph built inside
`dagre_left_right`. -/
structure DagreEntry where
  node : Node
  inputs : List String
  outputs : List String
deriving Repr, DecidableEq

/-- `Set.add` on a set of ids (insertion-ordered, duplicate-free). -/
def setAdd (l : List String) (v : String) : List String :=
  if v ∈ l then l else l ++ [v]

/-- The dependency graph of `dagre_left_right`: initialize an entry per
node, then record an edge for every wire target that names a graph
node. -/
def dagreGraph (nodes : List Node) : List (String × DagreEntry) :=
  let g0 := nodes.foldl
    (fun m n => aset m n.id { node := n, inputs := [], outputs := [] }) []
  nodes.foldl
    (fun m n =>
      (wiresTargets n.wires).foldl
        (fun m wireGroup =>
          wireGroup.foldl
            (fun m targetId =>
              if (aget m targetId).isSome then
                let m1 :=
                  match aget m n.id with
                  | some e => aset m n.id { e with outputs := setAdd e.outputs targetId }
                  | none => m
                match aget m1 targetId with
                | some e => aset m1 targetId { e with inputs := setAdd e.inputs n.id }
                | none => m1
              else m)
            m)
        m)
    g0

/-- The BFS level-assignment loop of `dagre_left_right`: pop `(id, level)`
from the queue, record the max level seen for `id`, and push every output
whose recorded level is below `level + 1`.  The JS `while` loop does not
terminate on cyclic graphs; the fuel argument bounds the embedded run. -/
def dagreBfs (g : List (String × DagreEntry)) :
    Nat → List (String × Int) → List (String × Int) → List (String × Int)
  | 0, _, levelMap => levelMap
  | _ + 1, [], levelMap => levelMap
  | fuel + 1, (id, level) :: rest, levelMap =>
    let lm :=
      match aget levelMap id with
      | some l => aset levelMap id (max l level)
      | none => aset levelMap id level
    let outs :=
      match aget g id with
      | some e => e.outputs
      | none => []
    let pushes := (outs.filter fun oid =>
        match aget lm oid with
        | none => true
        | some l => decide (l < level + 1)).map (fun oid => (oid, level + 1))
    dagreBfs g fuel (rest ++ pushes) lm

/-- The `try` body of `AutoLayoutManager.dagre_left_right`.  The only JS
statement in it that can throw is `nodes[0].id` when both the node list
and the root set are empty; BFS non-termination on cyclic inputs is cut
off by fuel instead (no claim in this development depends on a cyclic
dagre input). -/
def dagreBody (cm : CoordinateManager) (nodes : List Node)
    (existingCoords : List Coord) (safeZone : SafeZone) :
    Except String (List Node × List Coord) := do
  let graph := dagreGraph nodes
  let nodeMap := nodes.foldl (fun m n => aset m n.id n) []
  let rootNodes0 := (graph.filter (fun p => p.2.inputs.isEmpty)).map (·.1)
  let rootNodes ←
    if rootNodes0.isEmpty then
      match nodes with
      | [] => Except.error "TypeError: Cannot read properties of undefined (reading id)"
      | n0 :: _ => pure [n0.id]
    else pure rootNodes0
  let fuel := (nodes.length + 1) * (nodes.length + 1) * (nodes.length + 1)
  let levelMap := dagreBfs graph fuel (rootNodes.map (fun id => (id, (0 : Int)))) []
  let levelGroups := levelMap.foldl
    (fun (gm : List (Int × List String)) p =>
      aset gm p.2 (((aget gm p.2).getD []) ++ [p.1])) []
  -- isolated nodes: each gets the next level after the current maximum
  let iso := nodes.foldl
    (fun (acc : List (String × Int) × List (Int × List String)) n =>
      if (aget acc.1 n.id).isSome then acc
      else
        let maxLevel := (acc.2.map (·.1)).foldl max (-1)
        let isolatedLevel := maxLevel + 1
        (aset acc.1 n.id isolatedLevel,
         aset acc.2 isolatedLevel (((aget acc.2 isolatedLevel).getD []) ++ [n.id])))
    (levelMap, levelGroups)
  let sortedLevels := (iso.2.map (·.1)).mergeSort (fun a b => decide (a ≤ b))
  let positioned := sortedLevels.foldl
    (fun (acc : List (String × Coord) × List Coord) level =>
      let nodesInLevel := (aget iso.2 level).getD []
      let levelX := safeZone.startX + level * 250
      nodesInLevel.enum.foldl
        (fun (acc2 : List (String × Coord) × List Coord) ip =>
          match aget nodeMap ip.2 with
          | some _ =>
            let preferredY := safeZone.startY + (ip.1 : Int) * 80
            let position := findAvailablePosition cm levelX preferredY acc2.2 (some safeZone)
            (aset acc2.1 ip.2 position, addCoord acc2.2 position)
          | none => acc2)
        acc)
    ([], existingCoords)
  pure
    (nodes.map (fun n =>
      match aget positioned.1 n.id with
      | some p => setNodePos n p
      | none => n),
     positioned.2)

/-- `AutoLayoutManager.dagre_left_right`: the body above wrapped in
`try/catch`, degrading to `collisionFreeLayout` on any internal error. -/
def dagre_left_right (cm : CoordinateManager) (nodes : List Node)
    (existingCoords : List Coord) (safeZone : SafeZone) : List Node × List Coord :=
  match dagreBody cm nodes existingCoords safeZone with
  | .ok r => r
  | .error _ => collisionFreeLayout cm nodes existingCoords safeZone

/-! ### Strategy dispatch -/

/-- The selectable strategies of `AutoLayoutManager.applyAutoLayout`. -/
inductive LayoutAlg where
  | semantic_article
  | dagre_lr
  | grid
  | collision_free
deriving Repr, DecidableEq

/-- `AutoLayoutManager.applyAutoLayout`: fetch the existing coordinates and
bounds (modelled by passing the existing nodes), compute the safe zone,
and dispatch on the strategy.  There is no `try/catch` around the
dispatch: an error thrown by a strategy propagates to the caller. -/
def applyAutoLayout (cm : CoordinateManager) (nodes : List Node)
    (existingNodes : List Node) (algorithm : LayoutAlg) : Except String (List Node) :=
  let existingCoords := coordsOf existingNodes
  let bounds := boundsOf existingNodes
  let safeZone := calculateSafeZone bounds
  match algorithm with
  | .semantic_article => semanticArticleLayout nodes existingCoords safeZone
  | .dagre_lr => .ok (dagre_left_right cm nodes existingCoords safeZone).1
  | .grid => .ok (gridLayout cm nodes existingCoords safeZone).1
  | .collision_free => .ok (collisionFreeLayout cm nodes existingCoords safeZone).1

/-! ## Structural validation (`validateFlowStructure`) -/

/-- Result of `validateFlowStructure`. -/
structure ValidationResult where
  valid : Bool
  errors : List String
deriving Repr, DecidableEq

/-- The errors contributed by one node in the first validation pass,
together with the id set extended by its id when truthy and fresh. -/
def validateNodeFields (index : Nat) (node : Node) (ids : List String) :
    List String × List String :=
  let idErrs_ids :=
    if node.id = "" then
      (["节点" ++ toString index ++ ": 缺少必需的id字段"], ids)
    else if node.id ∈ ids then
      (["节点" ++ toString index ++ ": 重复的节点ID \"" ++ node.id ++ "\""], ids)
    else
      ([], ids ++ [node.id])
  let typeErrs :=
    if node.type.isNone then
      ["节点" ++ toString index ++ " (" ++ node.id ++ "): 缺少必需的type字段"]
    else []
  let coordErrs :=
    if node.x.isNone ∨ node.y.isNone then
      ["节点" ++ toString index ++ " (" ++ node.id ++ "): 坐标x,y必须是数字"]
    else []
  let wireErrs :=
    match node.wires with
    | .notArray => ["节点" ++ toString index ++ " (" ++ node.id ++ "): wires必须是数组"]
    | _ => []
  (idErrs_ids.1 ++ typeErrs ++ coordErrs ++ wireErrs, idErrs_ids.2)

/-- The first validation pass over the nodes (forEach with index `k`
onward): required fields, duplicate ids, numeric coordinates, wires
shape.  Returns the accumulated error messages together with the set of
truthy node ids collected on the way (insertion-ordered,
duplicate-free). -/
def validatePass1From (k : Nat) (ids : List String) :
    List Node → List String × List String
  | [] => ([], ids)
  | node :: rest =>
    let here := validateNodeFields k node ids
    let further := validatePass1From (k + 1) here.2 rest
    (here.1 ++ further.1, further.2)

/-- The first validation pass, started at index 0 with an empty id set. -/
def validatePass1 (nodes : List Node) : List String × List String :=
  validatePass1From 0 [] nodes

/-- The wire errors contributed by a single node in the second validation
pass: one message per truthy target id that does not resolve in the
node-set. -/
def wireTargetErrs (ids : List String) (index : Nat) (node : Node) : List String :=
  ((wiresTargets node.wires).map fun outputWires =>
      outputWires.filterMap fun targetId =>
        if targetId ≠ "" ∧ targetId ∉ ids then
          some ("节点" ++ toString index ++ " (" ++ node.id ++
            "): 连接到不存在的节点 \"" ++ targetId ++ "\"")
        else none).flatten

/-- The second validation pass (forEach with index `k` onward): dangling
wire references. -/
def validatePass2From (ids : List String) (k : Nat) : List Node → List String
  | [] => []
  | node :: rest => wireTargetErrs ids k node ++ validatePass2From ids (k + 1) rest

/-- The second validation pass: dangling wire references. -/
def validatePass2 (nodes : List Node) (ids : List String) : List String :=
  validatePass2From ids 0 nodes

/-- `validateFlowStructure`: accumulate every violation into one error
list, never failing fast; `none` models a missing or non-array `nodes`
property. -/
def validateFlowStructure (nodes? : Option (List Node)) : ValidationResult :=
  match nodes? with
  | none => { valid := false, errors := ["工作流必须包含nodes数组"] }
  | some nodes =>
    let p1 := validatePass1 nodes
    let errors := p1.1 ++ validatePass2 nodes p1.2
    { valid := errors.isEmpty, errors := errors }

/-! ## Flow merge (`mergeFlows`) -/

/-- A flow document as consumed by `mergeFlows`; `Option` fields model
property presence (with `none` also covering JS-falsy metadata, which the
code treats like absence). -/
structure Flow where
  id : String := ""
  label : Option String := none
  disabled : Option Bool := none
  env : Option String := none
  nodes : Option (List Node) := none
deriving Repr, DecidableEq

/-- The three merge policies. -/
inductive MergeMode where
  | replace
  | merge
  | addOnly
deriving Repr, DecidableEq

/-- JS truthiness of an optional string property (`if (newFlowData.label)`
style checks): present and non-empty. -/
def strOptTruthy (v : Option String) : Bool :=
  match v with
  | some s => decide (s ≠ "")
  | none => false

/-- Object spread `{ ...existingNode, ...newNode }`: a property present on
the incoming node wins, otherwise the existing one is kept (`id` always
comes from the incoming node, which matched on id anyway). -/
def spreadNode (o n : Node) : Node :=
  { id := n.id
    type := n.type.orElse (fun _ => o.type)
    name := n.name.orElse (fun _ => o.name)
    x := n.x.orElse (fun _ => o.x)
    y := n.y.orElse (fun _ => o.y)
    wires := match n.wires with | .absent => o.wires | w => w
    z := n.z.orElse (fun _ => o.z) }

/-- Replace the first list element whose id matches (JS `findIndex` then
index assignment; no-op when the id is not found). -/
def replaceById (l : List Node) (upd : Node) : List Node :=
  match l.findIdx? (fun n => n.id == upd.id) with
  | some i => l.set i upd
  | none => l

/-- JS truthiness of a numeric coordinate: `!newNode.x` is true when the
property is absent or the number is `0`. -/
def coordTruthy (v : Option Int) : Bool :=
  match v with
  | some a => decide (a ≠ 0)
  | none => false

/-- The `existingNodeMap` of `mergeFlows`: the existing flow's nodes keyed
by their truthy ids. -/
def existingNodeMapOf (existingFlow : Flow) : List (String × Node) :=
  (existingFlow.nodes.getD []).foldl
    (fun m n => if n.id ≠ "" then aset m n.id n else m) []

/-- The per-node step of the merge/add-only loop of `mergeFlows`.  State:
(accumulated node list, currentX, currentY).  Every incoming node first
gets `z` pinned to the flow id; a node whose id exists is updated
(`merge`) or skipped (`add-only`); a new id is appended, auto-positioned
when its coordinates are not both truthy. -/
def mergeStep (flow : Flow) (existingNodeMap : List (String × Node))
    (mode : MergeMode) (preserveCoordinates : Bool)
    (acc : List Node × Int × Int) (newNode0 : Node) : List Node × Int × Int :=
  let newNode := { newNode0 with z := some flow.id }
  match aget existingNodeMap newNode.id with
  | some existingNode =>
    match mode with
    | .merge =>
      let updatedNode0 := spreadNode existingNode newNode
      let updatedNode :=
        if preserveCoordinates then
          { updatedNode0 with x := existingNode.x, y := existingNode.y }
        else updatedNode0
      (replaceById acc.1 updatedNode, acc.2.1, acc.2.2)
    | _ => acc  -- add-only: skip existing ids
  | none =>
    if !(coordTruthy newNode.x) || !(coordTruthy newNode.y) then
      let positionedNode := { newNode with x := some acc.2.1, y := some acc.2.2 }
      let nextY := acc.2.2 + 100
      if nextY > 800 then (acc.1 ++ [positionedNode], acc.2.1 + 300, 100)
      else (acc.1 ++ [positionedNode], acc.2.1, nextY)
    else
      (acc.1 ++ [newNode], acc.2.1, acc.2.2)

/-- `mergeFlows`: reconcile an incoming node-set against an existing flow
under one of the three merge policies. -/
def mergeFlows (existingFlow : Flow) (newFlowData : Flow) (mode : MergeMode)
    (preserveCoordinates : Bool) : Flow :=
  match mode with
  | .replace =>
    let result :=
      { existingFlow with
        nodes := some (newFlowData.nodes.getD [])
        label := if strOptTruthy newFlowData.label then newFlowData.label else existingFlow.label
        disabled := newFlowData.disabled.orElse (fun _ => existingFlow.disabled)
        env := if strOptTruthy newFlowData.env then newFlowData.env else existingFlow.env }
    if preserveCoordinates then
      let coordMap := (existingFlow.nodes.getD []).foldl
        (fun m n =>
          match n.x, n.y with
          | some x, some y => if n.id ≠ "" then aset m n.id (Coord.mk x y) else m
          | _, _ => m)
        []
      { result with
        nodes := some ((result.nodes.getD []).map fun n =>
          match aget coordMap n.id with
          | some c => { n with x := some c.x, y := some c.y }
          | none => n) }
    else result
  | _ =>
    let existingNodes := existingFlow.nodes.getD []
    let existingNodeMap := existingNodeMapOf existingFlow
    -- the loop also tracks maxY, but only maxX feeds the auto-position
    -- counters (currentX = maxX + 200, currentY = 100)
    let maxX := (numericPoints existingNodes).foldl (fun m c => max m c.x) 0
    let r := (newFlowData.nodes.getD []).foldl
      (mergeStep existingFlow existingNodeMap mode preserveCoordinates)
      (existingNodes, maxX + 200, 100)
    let withMeta :=
      if mode = .merge then
        { existingFlow with
          label := if strOptTruthy newFlowData.label then newFlowData.label else existingFlow.label
          disabled := newFlowData.disabled.orElse (fun _ => existingFlow.disabled)
          env := if strOptTruthy newFlowData.env then newFlowData.env else existingFlow.env }
      else existingFlow
    { withMeta with nodes := some r.1 }

/-! ## Concrete sample data used by the theorems below -/

/-- A concrete anonymous configuration (no token mechanism at all). -/
def cfgAnon : Config :=
  { nodeRedUrl := "http://localhost:1880" }

/-- A concrete username/password configuration. -/
def cfgFull : Config :=
  { nodeRedUrl := "http://localhost:1880", nodeRedUsername := "admin",
    nodeRedPassword := "pw" }

/-- A concrete cached credential (as stored by a refresh at t = 1000 ms
with `expires_in = 3600`). -/
def sampleTd : TokenData :=
  { token := "tok", tokenType := "Bearer", expiresAt := 3601000,
    obtainedAt := 1000, expiresIn := 3600 }

/-- The existing flow of the spec's merge-mode scenario. -/
def exFlowC5 : Flow :=
  { id := "flow1", nodes := some [{ id := "n1" }] }

/-- The incoming flow data of the spec's merge-mode scenario. -/
def incomingC5 : Flow :=
  { nodes := some [{ id := "n1", name := some "updated" }, { id := "n2" }] }

/-- A node whose only problem is a wire reference to a non-existent id. -/
def nodeGhostWire : Node :=
  { id := "z", type := some "t", x := some 1, y := some 2, wires := .arr [["ghost"]] }

/-- A node-set exhibiting every violation kind at once: missing id (and
with it missing type and non-numeric coordinates), duplicate id,
non-array wires, and a dangling wire target. -/
def badNodes : List Node :=
  [{ id := "" },
   { id := "x", type := some "t", x := some 1, y := some 2 },
   { id := "x", type := some "t", x := some 1, y := some 2 },
   { id := "y", type := some "t", x := some 1, y := some 2, wires := .notArray },
   nodeGhostWire]

/-- The isolated node of the spec's chain-layout scenario. -/
def nodeD : Node := { id := "d", type := some "function" }

/-- Node A of the spec's chain-layout scenario (A→B→C plus isolated D). -/
def nodeA : Node := { id := "a", type := some "inject", wires := .arr [["b"]] }

/-- Node B of the chain-layout scenario. -/
def nodeB : Node := { id := "b", type := some "function", wires := .arr [["c"]] }

/-- Node C of the chain-layout scenario. -/
def nodeC : Node := { id := "c", type := some "debug", wires := .arr [[]] }

/-- A branching entry node wired to two targets at once. -/
def nodeE : Node := { id := "e", type := some "inject", wires := .arr [["f", "g"]] }

/-- First branch target, itself wired onward to `nodeH`. -/
def nodeF : Node := { id := "f", type := some "function", wires := .arr [["h"]] }

/-- Second branch target. -/
def nodeG : Node := { id := "g", type := some "function" }

/-- A node downstream of a branch target, not reached by tracing. -/
def nodeH : Node := { id := "h", type := some "debug" }

/-- An existing node occupying (300, 400). -/
def exP : Node := { id := "p", type := some "t", x := some 300, y := some 400 }

/-- An existing node occupying (310, 400), 10 px from `exP` — closer than
the node width plus buffer. -/
def exQ : Node := { id := "q", type := some "t", x := some 310, y := some 400 }

/-! ## Theorems about the authentication manager -/

/-- Claim C3: `isValid()` is false immediately after construction (no
credential cached); for every cached credential (whose token string is
nonempty, as every credential stored by a successful refresh is) it is
true iff `now < expiresAt - 60000`; and after a successful refresh at
time `t` with `expires_in = 3600` seconds it is true at `t+0` and at
`t+3539` seconds and false at `t+3541` seconds. -/
theorem c3_token_validity :
    (∀ now : Int, isTokenValid authInit now = false) ∧
    (∀ (td : TokenData) (now : Int), td.token ≠ "" →
      (isTokenValid (some td) now = true ↔ now < td.expiresAt - 60000)) ∧
    (∀ (cfg : Config) (st : AuthState) (t : Int) (tok tt : String),
      cfg.nodeRedUsername ≠ "" → cfg.nodeRedPassword ≠ "" → tok ≠ "" →
      isTokenValid (refreshToken cfg st t (.success tok 3600 tt)).1 t = true ∧
      isTokenValid (refreshToken cfg st t (.success tok 3600 tt)).1 (t + 3539 * 1000) = true ∧
      isTokenValid (refreshToken cfg st t (.success tok 3600 tt)).1 (t + 3541 * 1000) = false) := by
  refine ⟨fun now => rfl, fun td now h => ?_, fun cfg st t tok tt h1 h2 h3 => ?_⟩
  · simp only [isTokenValid, if_neg h, decide_eq_true_eq]
    omega
  · have hcfg : ¬(cfg.nodeRedUsername = "" ∨ cfg.nodeRedPassword = "") := by simp [h1, h2]
    refine ⟨?_, ?_, ?_⟩ <;> simp [refreshToken, hcfg, h3, isTokenValid] <;> omega

/-- Witness for C3 at a concrete credential and concrete refresh. -/
theorem c3_token_validity_witness :
    (isTokenValid (some sampleTd) 1000 = true ↔ (1000 : Int) < 3601000 - 60000) ∧
    (isTokenValid (refreshToken cfgFull authInit 1000
      (.success "tok" 3600 "")).1 (1000 + 3541 * 1000) = false) :=
  ⟨c3_token_validity.2.1 sampleTd 1000 (by decide),
   (c3_token_validity.2.2 cfgFull authInit 1000 "tok" "" (by decide) (by decide)
     (by decide)).2.2⟩

/-- Claim C6: `refresh()` fails with the missing-configuration error when
username or password is not configured, and a failed token exchange
yields the four distinguished `AuthError` messages: HTTP 401 (invalid
credentials), HTTP 404 (auth endpoint absent), any other HTTP status
(wrapped with the status), and connection failure (host unreachable);
the four messages are pairwise distinct. -/
theorem c6_refresh_error_taxonomy :
    (∀ (cfg : Config) (st : AuthState) (now : Int) (oc : HttpOutcome),
      cfg.nodeRedUsername = "" ∨ cfg.nodeRedPassword = "" →
      (refreshToken cfg st now oc).2 = .error configErrMsg) ∧
    (∀ (cfg : Config) (st : AuthState) (now : Int) (txt : String),
      cfg.nodeRedUsername ≠ "" → cfg.nodeRedPassword ≠ "" →
      (refreshToken cfg st now (.httpError 401 txt)).2 = .error invalidCredMsg ∧
      (refreshToken cfg st now (.httpError 404 txt)).2 = .error endpointMissingMsg ∧
      (∀ s : Nat, s ≠ 401 → s ≠ 404 →
        (refreshToken cfg st now (.httpError s txt)).2 =
          .error ("Authentication failed with status " ++ toString s ++ ": " ++ txt)) ∧
      (refreshToken cfg st now .connRefused).2 =
        .error ("Cannot connect to Node-RED at " ++ cfg.nodeRedUrl)) ∧
    (invalidCredMsg ≠ endpointMissingMsg ∧
     invalidCredMsg ≠ "Authentication failed with status 500: Internal Server Error" ∧
     invalidCredMsg ≠ "Cannot connect to Node-RED at http://localhost:1880" ∧
     endpointMissingMsg ≠ "Authentication failed with status 500: Internal Server Error" ∧
     endpointMissingMsg ≠ "Cannot connect to Node-RED at http://localhost:1880" ∧
     ("Authentication failed with status 500: Internal Server Error" : String) ≠
       "Cannot connect to Node-RED at http://localhost:1880") := by
  refine ⟨fun cfg st now oc h => by simp [refreshToken, h],
    fun cfg st now txt h1 h2 => ?_, by decide⟩
  have hcfg : ¬(cfg.nodeRedUsername = "" ∨ cfg.nodeRedPassword = "") := by simp [h1, h2]
  refine ⟨by simp [refreshToken, hcfg], by simp [refreshToken, hcfg],
    fun s hs1 hs2 => by simp [refreshToken, hcfg, hs1, hs2], by simp [refreshToken, hcfg]⟩

/-- Witness for C6 at a concrete configuration and concrete outcomes. -/
theorem c6_refresh_error_taxonomy_witness :
    (refreshToken cfgAnon authInit 0 .connRefused).2 = .error configErrMsg ∧
    (refreshToken cfgFull authInit 0 (.httpError 500 "Internal Server Error")).2 =
      .error ("Authentication failed with status " ++ toString (500 : Nat) ++
        ": " ++ "Internal Server Error") :=
  ⟨c6_refresh_error_taxonomy.1 cfgAnon authInit 0 .connRefused (Or.inl rfl),
   ((c6_refresh_error_taxonomy.2.1 cfgFull authInit 0 "Internal Server Error"
      (by decide) (by decide)).2.2.1 500 (by decide) (by decide))⟩

/-- Counterexample to claim C7: with no token mechanism configured at all
(no static token, no username, no password), `getAuthHeaders()` does not
return the empty header object — it raises the missing-credentials
error coming from `refreshToken`. -/
theorem c7_counterexample :
    (getAuthHeaders cfgAnon authInit 0 (.success "tok" 3600 "Bearer")).2 =
      .error configErrMsg ∧
    (getAuthHeaders cfgAnon authInit 0 (.success "tok" 3600 "Bearer")).2 ≠ .ok [] := by
  constructor
  · rfl
  · intro h
    simp [getAuthHeaders, getValidToken, isTokenValid, refreshToken, authInit, cfgAnon] at h

/-- Claim C7 as amended: when no token mechanism is configured,
`getAuthHeaders()` propagates the missing-credentials error (its
empty-object branch is unreachable on that path); the anonymous-upstream
behavior lives in `callNodeRed`, which skips `getAuthHeaders` entirely
and issues the request with empty headers. -/
theorem c7_amended :
    ∀ (cfg : Config) (now : Int) (oc : HttpOutcome),
      cfg.nodeRedToken = "" → cfg.nodeRedUsername = "" →
      (getAuthHeaders cfg authInit now oc).2 = .error configErrMsg ∧
      callNodeRedHeaders cfg authInit now oc = .ok [] := by
  intro cfg now oc htok huser
  have hval : getValidToken cfg authInit now oc = (authInit, .error configErrMsg) := by
    simp [getValidToken, htok, huser, isTokenValid, authInit, refreshToken]
  constructor
  · simp [getAuthHeaders, hval]
  · simp [callNodeRedHeaders, huser, htok]

/-- Witness for the amended C7 at a concrete anonymous configuration. -/
theorem c7_amended_witness :
    (getAuthHeaders cfgAnon authInit 0 .connRefused).2 = .error configErrMsg ∧
    callNodeRedHeaders cfgAnon authInit 0 .connRefused = .ok [] :=
  c7_amended cfgAnon 0 .connRefused rfl rfl

/-- Claim C10: token refresh is atomic with respect to the cached
credential — on any error the cached `tokenData` is exactly what it was
before the call (so a previously cached credential keeps reporting
`hasToken: true`), on success the cache is replaced wholesale by the new
credential, and `clearToken` is the only full reset. -/
theorem c10_refresh_atomic :
    (∀ (cfg : Config) (st : AuthState) (now : Int) (oc : HttpOutcome) (e : String),
      (refreshToken cfg st now oc).2 = .error e → (refreshToken cfg st now oc).1 = st) ∧
    (∀ (cfg : Config) (st : AuthState) (now : Int) (oc : HttpOutcome) (tok : String),
      (refreshToken cfg st now oc).2 = .ok tok →
      ∃ td : TokenData, (refreshToken cfg st now oc).1 = some td ∧
        td.token = tok ∧ td.obtainedAt = now) ∧
    (∀ (cfg : Config) (st : AuthState) (now : Int) (oc : HttpOutcome) (e : String)
        (td : TokenData), st = some td → (refreshToken cfg st now oc).2 = .error e →
      (getTokenStatus cfg (refreshToken cfg st now oc).1 now).hasToken = true) ∧
    (∀ st : AuthState, clearToken st = none) := by
  have key : ∀ (cfg : Config) (st : AuthState) (now : Int) (oc : HttpOutcome),
      ((refreshToken cfg st now oc).1 = st ∧ ∃ e, (refreshToken cfg st now oc).2 = .error e) ∨
      (∃ td : TokenData, (refreshToken cfg st now oc).1 = some td ∧
        (refreshToken cfg st now oc).2 = .ok td.token ∧ td.obtainedAt = now) := by
    intro cfg st now oc
    by_cases hcfg : cfg.nodeRedUsername = "" ∨ cfg.nodeRedPassword = ""
    · exact Or.inl (by simp [refreshToken, hcfg])
    · cases oc with
      | success tok ei tt =>
        by_cases htok : tok = ""
        · exact Or.inl (by simp [refreshToken, hcfg, htok])
        · refine Or.inr ⟨⟨tok, if tt = "" then "Bearer" else tt,
            now + ei * 1000, now, ei⟩, ?_⟩
          simp [refreshToken, hcfg, htok]
      | httpError s txt =>
        by_cases h1 : s = 401
        · exact Or.inl (by simp [refreshToken, hcfg, h1])
        · by_cases h2 : s = 404
          · exact Or.inl (by simp [refreshToken, hcfg, h1, h2])
          · exact Or.inl (by simp [refreshToken, hcfg, h1, h2])
      | connRefused => exact Or.inl (by simp [refreshToken, hcfg])
      | otherError m => exact Or.inl (by simp [refreshToken, hcfg])
  refine ⟨fun cfg st now oc e he => ?_, fun cfg st now oc tok htok => ?_,
    fun cfg st now oc e td hst he => ?_, fun st => rfl⟩
  · rcases key cfg st now oc with ⟨h, _⟩ | ⟨td, _, hok, _⟩
    · exact h
    · rw [hok] at he; cases he
  · rcases key cfg st now oc with ⟨_, e, herr⟩ | ⟨td, h1, hok, h2⟩
    · rw [herr] at htok; cases htok
    · rw [hok] at htok
      cases htok
      exact ⟨td, h1, rfl, h2⟩
  · rcases key cfg st now oc with ⟨h, _⟩ | ⟨td2, _, hok, _⟩
    · rw [h, hst]; rfl
    · rw [hok] at he; cases he

/-- Witness for C10: a failed exchange at a concrete cached credential
leaves it cached and still reported. -/
theorem c10_refresh_atomic_witness :
    (refreshToken cfgFull (some sampleTd) 9999999
      (.httpError 500 "Internal Server Error")).1 = some sampleTd :=
  c10_refresh_atomic.1 cfgFull (some sampleTd) 9999999
    (.httpError 500 "Internal Server Error")
    ("Authentication failed with status " ++ toString (500 : Nat) ++
      ": " ++ "Internal Server Error") (by rfl)

/-! ## Theorems about merge and validation -/

/-- Every step of the add-only merge loop either skips an incoming node
whose id is in the existing-node map or appends exactly one node whose id
is not. -/
theorem mergeStep_addOnly_extends (flow : Flow) (m : List (String × Node)) (pc : Bool)
    (acc : List Node × Int × Int) (h : Node) :
    ∃ app, (mergeStep flow m .addOnly pc acc h).1 = acc.1 ++ app ∧
      ∀ n ∈ app, aget m n.id = none := by
  unfold mergeStep
  rcases hg : aget m ({ h with z := some flow.id } : Node).id with _ | en
  · simp only [hg]
    split
    · split
      · exact ⟨[{ h with z := some flow.id, x := some acc.2.1, y := some acc.2.2 }],
          rfl, by intro n hn; rw [List.mem_singleton.1 hn]; exact hg⟩
      · exact ⟨[{ h with z := some flow.id, x := some acc.2.1, y := some acc.2.2 }],
          rfl, by intro n hn; rw [List.mem_singleton.1 hn]; exact hg⟩
    · exact ⟨[{ h with z := some flow.id }], rfl,
        by intro n hn; rw [List.mem_singleton.1 hn]; exact hg⟩
  · simp only [hg]
    exact ⟨[], by simp, by simp⟩

/-- Folding the add-only merge step never touches the accumulated prefix:
it only appends nodes whose ids are absent from the existing-node map. -/
theorem foldl_addOnly_extends (flow : Flow) (m : List (String × Node)) (pc : Bool) :
    ∀ (l : List Node) (acc : List Node × Int × Int),
      ∃ tail, (l.foldl (mergeStep flow m .addOnly pc) acc).1 = acc.1 ++ tail ∧
        ∀ n ∈ tail, aget m n.id = none := by
  intro l
  induction l with
  | nil => exact fun acc => ⟨[], by simp, by simp⟩
  | cons hd tl ih =>
    intro acc
    rw [List.foldl_cons]
    obtain ⟨app, happ, hprop⟩ := mergeStep_addOnly_extends flow m pc acc hd
    obtain ⟨tail, htail, hprop2⟩ := ih (mergeStep flow m .addOnly pc acc hd)
    refine ⟨app ++ tail, ?_, ?_⟩
    · rw [htail, happ, List.append_assoc]
    · intro n hn
      rcases List.mem_append.1 hn with hmem | hmem
      exacts [hprop n hmem, hprop2 n hmem]

/-- Claim C5: on existing nodes `[{id:"n1"}]` and incoming
`[{id:"n1", name:"updated"}, {id:"n2"}]`, `add-only` keeps `n1` unchanged
and appends `n2` (auto-positioned and pinned to the flow id), `merge`
shallow-overwrites `n1` with the incoming fields (coordinates re-pinned
to the existing — here absent — values) and appends `n2`; and in general
add-only silently skips every incoming node whose id already exists,
leaving the existing node list an unchanged prefix and appending only
nodes whose ids are not in the existing-node map. -/
theorem c5_merge_modes :
    ((mergeFlows exFlowC5 incomingC5 .addOnly true).nodes =
      some [{ id := "n1" },
            { id := "n2", x := some 200, y := some 100, z := some "flow1" }]) ∧
    ((mergeFlows exFlowC5 incomingC5 .merge true).nodes =
      some [{ id := "n1", name := some "updated", z := some "flow1" },
            { id := "n2", x := some 200, y := some 100, z := some "flow1" }]) ∧
    (∀ (flow newData : Flow) (pc : Bool),
      ∃ tail, (mergeFlows flow newData .addOnly pc).nodes =
          some ((flow.nodes.getD []) ++ tail) ∧
        ∀ n ∈ tail, aget (existingNodeMapOf flow) n.id = none) := by
  refine ⟨rfl, rfl, fun flow newData pc => ?_⟩
  obtain ⟨tail, ht, hp⟩ := foldl_addOnly_extends flow (existingNodeMapOf flow) pc
    (newData.nodes.getD [])
    (flow.nodes.getD [],
      ((numericPoints (flow.nodes.getD [])).foldl (fun m c => max m c.x) 0) + 200, 100)
  exact ⟨tail, by rw [show (mergeFlows flow newData .addOnly pc).nodes =
    some ((newData.nodes.getD []).foldl
      (mergeStep flow (existingNodeMapOf flow) .addOnly pc)
      (flow.nodes.getD [],
        ((numericPoints (flow.nodes.getD [])).foldl (fun m c => max m c.x) 0) + 200,
        100)).1 from rfl, ht], hp⟩

/-- Witness for C5's general add-only clause at the concrete scenario. -/
theorem c5_merge_modes_witness :
    ∃ tail, (mergeFlows exFlowC5 incomingC5 .addOnly true).nodes =
        some ((exFlowC5.nodes.getD []) ++ tail) ∧
      ∀ n ∈ tail, aget (existingNodeMapOf exFlowC5) n.id = none :=
  c5_merge_modes.2.2 exFlowC5 incomingC5 true

/-- A wire-target error exists for a node as soon as one of its wire
arrays holds a truthy target id outside the node-set's id set, at any
node index. -/
theorem wireTargetErrs_ne_nil (ids : List String) (k : Nat) (n : Node)
    (out : List String) (t : String) (hout : out ∈ wiresTargets n.wires)
    (ht : t ∈ out) (ht1 : t ≠ "") (ht2 : t ∉ ids) :
    wireTargetErrs ids k n ≠ [] := by
  apply List.ne_nil_of_mem (a := "节点" ++ toString k ++ " (" ++ n.id ++
    "): 连接到不存在的节点 \"" ++ t ++ "\"")
  unfold wireTargetErrs
  apply List.mem_flatten.2
  refine ⟨_, List.mem_map_of_mem _ hout, ?_⟩
  exact List.mem_filterMap.2 ⟨t, ht, by rw [if_pos ⟨ht1, ht2⟩]⟩

/-- The second validation pass is nonempty as soon as some node has a
dangling truthy wire target. -/
theorem validatePass2From_ne_nil (ids : List String) :
    ∀ (l : List Node) (k : Nat) (n : Node) (out : List String) (t : String),
      n ∈ l → out ∈ wiresTargets n.wires → t ∈ out → t ≠ "" → t ∉ ids →
      validatePass2From ids k l ≠ [] := by
  intro l
  induction l with
  | nil => intro k n out t hn; cases hn
  | cons hd tl ih =>
    intro k n out t hn hout ht ht1 ht2
    rcases List.mem_cons.1 hn with rfl | hn
    · show wireTargetErrs ids k n ++ validatePass2From ids (k + 1) tl ≠ []
      intro hcontra
      exact wireTargetErrs_ne_nil ids k n out t hout ht ht1 ht2
        (List.append_eq_nil.1 hcontra).1
    · show wireTargetErrs ids k hd ++ validatePass2From ids (k + 1) tl ≠ []
      intro hcontra
      exact ih (k + 1) n out t hn hout ht ht1 ht2 (List.append_eq_nil.1 hcontra).2

/-- Claim C8: structural validation accumulates all violations into one
error list instead of stopping at the first one (the all-violations
node-set yields exactly its six messages), and a node-set containing a
wire reference to a non-existent id always yields `valid: false` with a
non-empty error list; the embedded function is total, so no input
throws. -/
theorem c8_validation_accumulates :
    ((validateFlowStructure (some [nodeGhostWire])).valid = false ∧
      (validateFlowStructure (some [nodeGhostWire])).errors ≠ []) ∧
    ((validateFlowStructure (some badNodes)).valid = false ∧
      (validateFlowStructure (some badNodes)).errors.length = 6) ∧
    (∀ (nodes : List Node) (n : Node) (out : List String) (t : String),
      n ∈ nodes → out ∈ wiresTargets n.wires → t ∈ out → t ≠ "" →
      t ∉ (validatePass1 nodes).2 →
      (validateFlowStructure (some nodes)).valid = false ∧
      (validateFlowStructure (some nodes)).errors ≠ []) := by
  refine ⟨⟨by decide, by decide⟩, ⟨by decide, by decide⟩,
    fun nodes n out t hn hout ht ht1 ht2 => ?_⟩
  have h2 : validatePass2 nodes (validatePass1 nodes).2 ≠ [] :=
    validatePass2From_ne_nil (validatePass1 nodes).2 nodes 0 n out t hn hout ht ht1 ht2
  have herr : (validateFlowStructure (some nodes)).errors ≠ [] := by
    show (validatePass1 nodes).1 ++ validatePass2 nodes (validatePass1 nodes).2 ≠ []
    intro hcontra
    exact h2 (List.append_eq_nil.1 hcontra).2
  refine ⟨?_, herr⟩
  show ((validatePass1 nodes).1 ++ validatePass2 nodes (validatePass1 nodes).2).isEmpty = false
  rw [List.isEmpty_eq_false_iff_exists_mem]
  obtain ⟨x, hx⟩ := List.exists_mem_of_ne_nil _ herr
  exact ⟨x, hx⟩

/-- Witness for C8's general clause at the concrete dangling-wire
node-set. -/
theorem c8_validation_accumulates_witness :
    (validateFlowStructure (some [nodeGhostWire])).valid = false ∧
    (validateFlowStructure (some [nodeGhostWire])).errors ≠ [] :=
  c8_validation_accumulates.2.2 [nodeGhostWire] nodeGhostWire ["ghost"] "ghost"
    (by decide) (by decide) (by decide) (by decide) (by decide)

/-- Claim C9: the grid layout strategy is deterministic — two runs on
identical inputs (the same insertion-ordered occupied-coordinate set, the
same new-node list, the same safe zone) assign identical coordinates to
every node.  The embedded strategy is a pure function of exactly these
inputs (no randomness, clock, or hidden state), so equal inputs force
equal outputs. -/
theorem c9_gridLayout_deterministic :
    ∀ (cm cm2 : CoordinateManager) (nodes nodes2 : List Node)
      (coords coords2 : List Coord) (sz sz2 : SafeZone),
      cm = cm2 → nodes = nodes2 → coords = coords2 → sz = sz2 →
      gridLayout cm nodes coords sz = gridLayout cm2 nodes2 coords2 sz2 := by
  intro cm cm2 nodes nodes2 coords coords2 sz sz2 h1 h2 h3 h4
  rw [h1, h2, h3, h4]

/-- Witness for C9 at a concrete repeated run. -/
theorem c9_gridLayout_deterministic_witness :
    gridLayout CoordinateManager.default [{ id := "a", type := some "t" }]
      [⟨100, 100⟩] (calculateSafeZone (Bounds.mk 100 100 100 100)) =
    gridLayout CoordinateManager.default [{ id := "a", type := some "t" }]
      [⟨100, 100⟩] (calculateSafeZone (Bounds.mk 100 100 100 100)) :=
  c9_gridLayout_deterministic _ _ _ _ _ _ _ _ rfl rfl rfl rfl

/-! ## Theorems about the layout strategies -/

/-- A fold preserves any invariant its step preserves. -/
theorem foldl_preserve {α β : Type} (P : α → Prop) (f : α → β → α)
    (hf : ∀ a b, P a → P (f a b)) : ∀ (l : List β) (a : α), P a → P (l.foldl f a) := by
  intro l
  induction l with
  | nil => exact fun a h => h
  | cons hd tl ih => exact fun a h => ih (f a hd) (hf a hd h)

theorem traceBranch_ne_nil (g : ConnGraph) :
    ∀ (ts : List String) (acc : List Node × List String), acc.1 ≠ [] →
      (ts.foldl (fun acc targetId =>
        match aget g.nodeMap targetId with
        | some tn => if targetId ∈ acc.2 then acc else (acc.1 ++ [tn], acc.2 ++ [targetId])
        | none => acc) acc).1 ≠ [] := by
  intro ts
  induction ts with
  | nil => exact fun acc h => h
  | cons hd tl ih =>
    intro acc h
    rw [List.foldl_cons]
    apply ih
    rcases hm : aget g.nodeMap hd with _ | tn
    · simpa [hm] using h
    · by_cases hv : hd ∈ acc.2
      · simpa [hm, hv] using h
      · simp [hm, hv]

theorem traceLoop_ne_nil (g : ConnGraph) :
    ∀ (fuel : Nat) (cur : Node) (chain : List Node) (visited : List String),
      chain ≠ [] → (traceLoop g fuel cur chain visited).1 ≠ [] := by
  intro fuel
  induction fuel with
  | zero => exact fun cur chain visited h => h
  | succ n ih =>
    intro cur chain visited h
    unfold traceLoop
    rcases htg : (aget g.outgoing cur.id).getD [] with _ | ⟨t1, ts⟩
    · exact h
    · rcases ts with _ | ⟨t2, ts'⟩
      · rcases hm : aget g.nodeMap t1 with _ | tn
        · simp [hm]; exact h
        · by_cases hv : t1 ∈ visited
          · simp [hm, hv]; exact h
          · simp [hm, hv]
            exact ih tn (chain ++ [tn]) (visited ++ [t1]) (by simp)
      · exact traceBranch_ne_nil g (t1 :: t2 :: ts') (chain, visited) h

theorem traceFunctionalChain_ne_nil (g : ConnGraph) (e : Node) (visited : List String)
    (fuel : Nat) : (traceFunctionalChain g e visited fuel).1 ≠ [] :=
  traceLoop_ne_nil g fuel e [e] (visited ++ [e.id]) (by simp)

theorem traceStep_all_ne_nil (g : ConnGraph) (fb : Nat) (acc : List Chain × List String)
    (e : Node) (h : ∀ ch ∈ acc.1, ch.nodes ≠ []) :
    ∀ ch ∈ (traceStep g fb acc e).1, ch.nodes ≠ [] := by
  unfold traceStep
  by_cases hv : e.id ∈ acc.2
  · simpa [hv] using h
  · simp only [hv, if_false, Bool.false_eq_true, ite_false]
    rcases htc : (traceFunctionalChain g e acc.2 fb).1 with _ | ⟨c0, cs⟩
    · simpa [htc] using h
    · simp only [htc]
      intro ch hch
      rcases List.mem_append.1 hch with h1 | h1
      · exact h ch h1
      · rw [List.mem_singleton.1 h1]
        simp [htc]

theorem traceStep_inv (g : ConnGraph) (fb : Nat) (acc : List Chain × List String)
    (e : Node) (h : acc.1 = [] → acc.2 = []) :
    (traceStep g fb acc e).1 = [] → (traceStep g fb acc e).2 = [] := by
  unfold traceStep
  by_cases hv : e.id ∈ acc.2
  · simpa [hv] using h
  · simp only [hv, if_false, Bool.false_eq_true, ite_false]
    rcases htc : (traceFunctionalChain g e acc.2 fb).1 with _ | ⟨c0, cs⟩
    · exact absurd htc (traceFunctionalChain_ne_nil g e acc.2 fb)
    · simp only [htc]
      intro hcontra
      exact absurd hcontra (by simp)

theorem standaloneStep_all_ne_nil (acc : List Chain × List String) (n : Node)
    (h : ∀ ch ∈ acc.1, ch.nodes ≠ []) :
    ∀ ch ∈ (standaloneStep acc n).1, ch.nodes ≠ [] := by
  unfold standaloneStep
  by_cases hv : n.id ∈ acc.2
  · simpa [hv] using h
  · simp only [hv, if_false, Bool.false_eq_true, ite_false]
    intro ch hch
    rcases List.mem_append.1 hch with h1 | h1
    · exact h ch h1
    · rw [List.mem_singleton.1 h1]
      simp

theorem standaloneStep_keeps_ne_nil (acc : List Chain × List String) (n : Node)
    (h : acc.1 ≠ []) : (standaloneStep acc n).1 ≠ [] := by
  unfold standaloneStep
  by_cases hv : n.id ∈ acc.2
  · simpa [hv] using h
  · simp [hv]

theorem identifyChains_all_ne_nil (nodes : List Node) (g : ConnGraph) :
    ∀ ch ∈ identifyFunctionalChains nodes g, ch.nodes ≠ [] := by
  unfold identifyFunctionalChains
  refine foldl_preserve (fun acc => ∀ ch ∈ acc.1, ch.nodes ≠ []) standaloneStep
    (fun a b h => standaloneStep_all_ne_nil a b h) nodes _ ?_
  refine foldl_preserve (fun acc => ∀ ch ∈ acc.1, ch.nodes ≠ [])
    (traceStep g (nodes.length + 1))
    (fun a b h => traceStep_all_ne_nil g (nodes.length + 1) a b h)
    (findEntryPoints nodes g) ([], []) ?_
  intro ch hch
  cases hch

theorem identifyChains_ne_nil (nodes : List Node) (g : ConnGraph) (hn : nodes ≠ []) :
    identifyFunctionalChains nodes g ≠ [] := by
  unfold identifyFunctionalChains
  cases nodes with
  | nil => exact absurd rfl hn
  | cons n0 rest =>
    have hinv : (((findEntryPoints (n0 :: rest) g).foldl
        (traceStep g ((n0 :: rest).length + 1)) ([], [])).1 = [] →
        ((findEntryPoints (n0 :: rest) g).foldl
        (traceStep g ((n0 :: rest).length + 1)) ([], [])).2 = []) :=
      foldl_preserve (fun acc => acc.1 = [] → acc.2 = [])
        (traceStep g ((n0 :: rest).length + 1))
        (fun a b h => traceStep_inv g ((n0 :: rest).length + 1) a b h)
        (findEntryPoints (n0 :: rest) g) ([], []) (fun _ => rfl)
    show (List.foldl standaloneStep
      (List.foldl (traceStep g ((n0 :: rest).length + 1)) ([], [])
        (findEntryPoints (n0 :: rest) g)) (n0 :: rest)).1 ≠ []
    rw [List.foldl_cons]
    by_cases ht : ((findEntryPoints (n0 :: rest) g).foldl
        (traceStep g ((n0 :: rest).length + 1)) ([], [])).1 = []
    · have hv2 := hinv ht
      refine foldl_preserve (fun acc => acc.1 ≠ []) standaloneStep
        (fun a b h => standaloneStep_keeps_ne_nil a b h) rest _ ?_
      unfold standaloneStep
      rw [hv2]
      simp
    · exact foldl_preserve (fun acc => acc.1 ≠ []) standaloneStep
        (fun a b h => standaloneStep_keeps_ne_nil a b h) rest _
        (standaloneStep_keeps_ne_nil _ n0 ht)

theorem positionFunctionalChains_error (c : Chain) (rest : List Chain)
    (sz : SafeZone) (coords : List Coord) (hc : c.nodes ≠ []) :
    positionFunctionalChains (c :: rest) sz coords =
      .error "TypeError: this.coordinateManager.findSafePosition is not a function" := by
  rcases hn : c.nodes with _ | ⟨n0, ns⟩
  · exact absurd hn hc
  · simp only [positionFunctionalChains, List.foldlM_cons, positionChainAsRow, hn]
    rfl

theorem semanticArticleLayout_error (nodes : List Node) (coords : List Coord)
    (sz : SafeZone) (hn : nodes ≠ []) :
    semanticArticleLayout nodes coords sz =
      .error "TypeError: this.coordinateManager.findSafePosition is not a function" := by
  show positionFunctionalChains
    (identifyFunctionalChains nodes (buildConnectionGraph nodes)) sz coords = _
  rcases hch : identifyFunctionalChains nodes (buildConnectionGraph nodes) with _ | ⟨c, rest⟩
  · exact absurd hch (identifyChains_ne_nil nodes (buildConnectionGraph nodes) hn)
  · exact positionFunctionalChains_error c rest sz coords
      (identifyChains_all_ne_nil nodes (buildConnectionGraph nodes) c
        (hch ▸ List.mem_cons_self c rest))

/-- Counterexample to claim C2: the layout operation does raise an error
to its caller — selecting the semantic strategy for a single-node batch
propagates the TypeError from the missing
`CoordinateManager.findSafePosition` method, with no fallback. -/
theorem c2_counterexample :
    applyAutoLayout CoordinateManager.default [nodeD] [] .semantic_article =
      .error "TypeError: this.coordinateManager.findSafePosition is not a function" ∧
    (applyAutoLayout CoordinateManager.default [nodeD] [] .semantic_article).isOk = false := by
  exact ⟨rfl, rfl⟩

/-- Claim C2 as amended: the collision-free, grid and dagre strategies
never raise (the dagre wrapper catches every internal error of its body
and degrades to the collision-free layout), but the semantic strategy has
no such fallback: on every nonempty batch it raises the TypeError of the
missing `findSafePosition` method to the caller of `applyAutoLayout`. -/
theorem c2_amended :
    (∀ (cm : CoordinateManager) (nodes existingNodes : List Node),
      applyAutoLayout cm nodes existingNodes .collision_free =
        .ok (collisionFreeLayout cm nodes (coordsOf existingNodes)
          (calculateSafeZone (boundsOf existingNodes))).1 ∧
      applyAutoLayout cm nodes existingNodes .grid =
        .ok (gridLayout cm nodes (coordsOf existingNodes)
          (calculateSafeZone (boundsOf existingNodes))).1 ∧
      applyAutoLayout cm nodes existingNodes .dagre_lr =
        .ok (dagre_left_right cm nodes (coordsOf existingNodes)
          (calculateSafeZone (boundsOf existingNodes))).1) ∧
    (∀ (cm : CoordinateManager) (nodes : List Node) (coords : List Coord)
        (sz : SafeZone) (e : String), dagreBody cm nodes coords sz = .error e →
      dagre_left_right cm nodes coords sz = collisionFreeLayout cm nodes coords sz) ∧
    (∀ (cm : CoordinateManager) (nodes existingNodes : List Node), nodes ≠ [] →
      applyAutoLayout cm nodes existingNodes .semantic_article =
        .error "TypeError: this.coordinateManager.findSafePosition is not a function") := by
  refine ⟨fun cm nodes existingNodes => ⟨rfl, rfl, rfl⟩,
    fun cm nodes coords sz e he => ?_, fun cm nodes existingNodes hn => ?_⟩
  · unfold dagre_left_right
    rw [he]
  · exact semanticArticleLayout_error nodes (coordsOf existingNodes)
      (calculateSafeZone (boundsOf existingNodes)) hn

/-- Witness for the amended C2 at concrete inputs. -/
theorem c2_amended_witness :
    (applyAutoLayout CoordinateManager.default [nodeD] [] .collision_free =
      .ok (collisionFreeLayout CoordinateManager.default [nodeD] (coordsOf [])
        (calculateSafeZone (boundsOf []))).1) ∧
    (applyAutoLayout CoordinateManager.default [nodeD] [] .semantic_article =
      .error "TypeError: this.coordinateManager.findSafePosition is not a function") :=
  ⟨(c2_amended.1 CoordinateManager.default [nodeD] []).1,
   c2_amended.2.2 CoordinateManager.default [nodeD] [] (by decide)⟩

/-- Claim C4: the chain-identification half of the claim holds on the
embedded code — A→B→C become one chain and the isolated D its own
standalone chain (in that order), branch targets are appended as terminal
chain members with tracing stopping there (E with two targets yields
chain [E,F,G], leaving H untraced as its own chain) — but the positioning
half fails: the semantic layout never produces the claimed rows because
`positionChainAsRow` calls the nonexistent
`CoordinateManager.findSafePosition` and raises a TypeError on the very
scenario the claim describes. -/
theorem c4_semantic_chain_layout :
    ((identifyFunctionalChains [nodeA, nodeB, nodeC, nodeD]
        (buildConnectionGraph [nodeA, nodeB, nodeC, nodeD])).map
          (fun ch => ch.nodes.map (fun n => n.id)) = [["a", "b", "c"], ["d"]]) ∧
    ((identifyFunctionalChains [nodeE, nodeF, nodeG, nodeH]
        (buildConnectionGraph [nodeE, nodeF, nodeG, nodeH])).map
          (fun ch => ch.nodes.map (fun n => n.id)) = [["e", "f", "g"], ["h"]]) ∧
    (applyAutoLayout CoordinateManager.default [nodeA, nodeB, nodeC, nodeD] []
        .semantic_article =
      .error "TypeError: this.coordinateManager.findSafePosition is not a function") := by
  exact ⟨by decide, by decide, rfl⟩

/-! ## Theorems about batch placement (claim C1) -/

theorem overlapWithin_eq (cm : CoordinateManager) (c1 c2 : Coord) :
    overlapWithin cm c1 c2 =
      (decide (|c1.x - c2.x| < cm.nodeWidth + buffer) &&
       decide (|c1.y - c2.y| < cm.nodeHeight + buffer)) := by
  simp [overlapWithin, checkCoordinateCollision]

theorem checkCoordinateCollision_eq_false (cm : CoordinateManager) (x y : Int)
    (coords : List Coord) :
    checkCoordinateCollision cm x y coords = false ↔
      ∀ c ∈ coords, overlapWithin cm ⟨x, y⟩ c = false := by
  simp [checkCoordinateCollision, overlapWithin, List.any_eq_false]

theorem one_le_abs_sub_of_ne (a b : Int) (hab : a ≠ b) : 1 ≤ |a - b| :=
  Int.one_le_abs (sub_ne_zero.2 hab)

theorem sep_of_ne (a b s : Int) (hab : a ≠ b) (hs : 0 ≤ s) : s ≤ |(a - b) * s| := by
  rw [abs_mul, abs_of_nonneg hs]
  calc s = 1 * s := (one_mul s).symm
    _ ≤ |a - b| * s := mul_le_mul_of_nonneg_right (one_le_abs_sub_of_ne a b hab) hs

theorem preferredSlot_sep (sz : SafeZone) (hx : (140 : Int) ≤ sz.spacingX)
    (hy : (50 : Int) ≤ sz.spacingY) (i j : Nat) (hij : i ≠ j) :
    overlapWithin CoordinateManager.default (preferredSlot sz i) (preferredSlot sz j) = false := by
  rw [overlapWithin_eq]
  have hdx : (preferredSlot sz i).x - (preferredSlot sz j).x =
      ((i % sz.nodesPerRow : Nat) - (j % sz.nodesPerRow : Nat) : Int) * sz.spacingX := by
    simp [preferredSlot]; ring
  have hdy : (preferredSlot sz i).y - (preferredSlot sz j).y =
      ((i / sz.nodesPerRow : Nat) - (j / sz.nodesPerRow : Nat) : Int) * sz.spacingY := by
    simp [preferredSlot]; ring
  by_cases hrow : i / sz.nodesPerRow = j / sz.nodesPerRow
  · have hcol : i % sz.nodesPerRow ≠ j % sz.nodesPerRow := by
      intro hc
      apply hij
      have h1 := Nat.div_add_mod i sz.nodesPerRow
      have h2 := Nat.div_add_mod j sz.nodesPerRow
      rw [hrow, hc] at h1
      omega
    have hsep : sz.spacingX ≤ |(preferredSlot sz i).x - (preferredSlot sz j).x| := by
      rw [hdx]
      exact sep_of_ne _ _ _ (by exact_mod_cast hcol) (by omega)
    have : ¬(|(preferredSlot sz i).x - (preferredSlot sz j).x| <
        CoordinateManager.default.nodeWidth + buffer) := by
      show ¬(_ < 120 + 20)
      omega
    simp [this]
  · have hsep : sz.spacingY ≤ |(preferredSlot sz i).y - (preferredSlot sz j).y| := by
      rw [hdy]
      exact sep_of_ne _ _ _ (by exact_mod_cast hrow) (by omega)
    have : ¬(|(preferredSlot sz i).y - (preferredSlot sz j).y| <
        CoordinateManager.default.nodeHeight + buffer) := by
      show ¬(_ < 30 + 20)
      omega
    simp [this]

theorem preferredSlot_ge (sz : SafeZone) (hx : (0 : Int) ≤ sz.spacingX)
    (hy : (0 : Int) ≤ sz.spacingY) (i : Nat) :
    sz.startX ≤ (preferredSlot sz i).x ∧ sz.startY ≤ (preferredSlot sz i).y := by
  constructor
  · exact le_add_of_nonneg_right (mul_nonneg (Int.natCast_nonneg _) hx)
  · exact le_add_of_nonneg_right (mul_nonneg (Int.natCast_nonneg _) hy)

theorem mem_foldl_addCoord :
    ∀ (l : List Coord) (init : List Coord) (c : Coord),
      c ∈ l.foldl addCoord init → c ∈ init ∨ c ∈ l := by
  intro l
  induction l with
  | nil => exact fun init c h => Or.inl h
  | cons hd tl ih =>
    intro init c h
    rcases ih (addCoord init hd) c h with h1 | h1
    · unfold addCoord at h1
      split at h1
      · exact Or.inl h1
      · rcases List.mem_append.1 h1 with h2 | h2
        · exact Or.inl h2
        · exact Or.inr (by rw [List.mem_singleton.1 h2]; exact List.mem_cons_self hd tl)
    · exact Or.inr (List.mem_cons_of_mem hd h1)

theorem coordsOf_subset (ns : List Node) (c : Coord) (h : c ∈ coordsOf ns) :
    c ∈ numericPoints ns := by
  rcases mem_foldl_addCoord (numericPoints ns) [] c h with h1 | h1
  · cases h1
  · exact h1

theorem boundsFold_maxY_mono (step : Bounds → Coord → Bounds)
    (hstep : ∀ b q, b.maxY ≤ (step b q).maxY) :
    ∀ (ps : List Coord) (b : Bounds), b.maxY ≤ (ps.foldl step b).maxY := by
  intro ps
  induction ps with
  | nil => exact fun b => le_refl _
  | cons hd tl ih => exact fun b => le_trans (hstep b hd) (ih (step b hd))

theorem boundsFold_maxY_mem (step : Bounds → Coord → Bounds)
    (hstep : ∀ b q, b.maxY ≤ (step b q).maxY)
    (hself : ∀ b q, q.y ≤ (step b q).maxY) :
    ∀ (ps : List Coord) (b : Bounds) (q : Coord), q ∈ ps →
      q.y ≤ (ps.foldl step b).maxY := by
  intro ps
  induction ps with
  | nil => intro b q hq; cases hq
  | cons hd tl ih =>
    intro b q hq
    rw [List.foldl_cons]
    rcases List.mem_cons.1 hq with rfl | hmem
    · exact le_trans (hself b q) (boundsFold_maxY_mono step hstep tl (step b q))
    · exact ih (step b hd) q hmem

theorem boundsOf_maxY (ns : List Node) (q : Coord) (hq : q ∈ numericPoints ns) :
    q.y ≤ (boundsOf ns).maxY := by
  unfold boundsOf
  rcases hnp : numericPoints ns with _ | ⟨p, ps⟩
  · rw [hnp] at hq; cases hq
  · rw [hnp] at hq
    show q.y ≤ (ps.foldl (fun b q =>
      Bounds.mk (min b.minX q.x) (max b.maxX q.x) (min b.minY q.y) (max b.maxY q.y))
      (Bounds.mk p.x p.x p.y p.y)).maxY
    have hmono : ∀ (b : Bounds) (c : Coord), b.maxY ≤ (Bounds.mk (min b.minX c.x)
        (max b.maxX c.x) (min b.minY c.y) (max b.maxY c.y)).maxY :=
      fun b c => le_max_left _ _
    have hself : ∀ (b : Bounds) (c : Coord), c.y ≤ (Bounds.mk (min b.minX c.x)
        (max b.maxX c.x) (min b.minY c.y) (max b.maxY c.y)).maxY :=
      fun b c => le_max_right _ _
    rcases List.mem_cons.1 hq with rfl | hmem
    · exact boundsFold_maxY_mono _ hmono ps (Bounds.mk q.x q.x q.y q.y)
    · exact boundsFold_maxY_mem _ hmono hself ps (Bounds.mk p.x p.x p.y p.y) q hmem

theorem slot_no_overlap_existing (ns : List Node) (i : Nat) (c : Coord)
    (hc : c ∈ coordsOf ns) :
    overlapWithin CoordinateManager.default
      (preferredSlot (calculateSafeZone (boundsOf ns)) i) c = false := by
  have hcy : c.y ≤ (boundsOf ns).maxY := boundsOf_maxY ns c (coordsOf_subset ns c hc)
  have hsy : (boundsOf ns).maxY + 150 ≤ (preferredSlot (calculateSafeZone (boundsOf ns)) i).y := by
    have := (preferredSlot_ge (calculateSafeZone (boundsOf ns)) (by norm_num [calculateSafeZone])
      (by norm_num [calculateSafeZone]) i).2
    simpa [calculateSafeZone] using this
  rw [overlapWithin_eq]
  have : ¬(|(preferredSlot (calculateSafeZone (boundsOf ns)) i).y - c.y| <
      CoordinateManager.default.nodeHeight + buffer) := by
    show ¬(_ < 30 + 20)
    rw [abs_of_nonneg (by omega)]
    omega
  simp [this]

theorem findAvailablePosition_of_free (cm : CoordinateManager) (px py : Int)
    (coords : List Coord) (sz : SafeZone) (hx : sz.startX ≤ px) (hy : sz.startY ≤ py)
    (hfree : checkCoordinateCollision cm px py coords = false) :
    findAvailablePosition cm px py coords (some sz) = ⟨px, py⟩ := by
  unfold findAvailablePosition
  simp [not_lt.2 hx, not_lt.2 hy, hfree]

theorem addCoord_mem (l : List Coord) (c d : Coord) (h : d ∈ addCoord l c) :
    d ∈ l ∨ d = c := by
  unfold addCoord at h
  split at h
  · exact Or.inl h
  · rcases List.mem_append.1 h with h1 | h1
    · exact Or.inl h1
    · exact Or.inr (List.mem_singleton.1 h1)

theorem layoutStep_places (sz : SafeZone)
    (hsep : ∀ i j : Nat, i ≠ j →
      overlapWithin CoordinateManager.default (preferredSlot sz i) (preferredSlot sz j) = false)
    (hge : ∀ i : Nat, sz.startX ≤ (preferredSlot sz i).x ∧ sz.startY ≤ (preferredSlot sz i).y) :
    ∀ (rest : List Node) (k : Nat) (acc : List Coord),
      (∀ c ∈ acc, ∀ i : Nat, k ≤ i →
        overlapWithin CoordinateManager.default (preferredSlot sz i) c = false) →
      (layoutStep CoordinateManager.default sz rest k acc).1 = placedAt sz k rest := by
  intro rest
  induction rest with
  | nil => intro k acc hacc; rfl
  | cons n tl ih =>
    intro k acc hacc
    have hfree : checkCoordinateCollision CoordinateManager.default
        (preferredSlot sz k).x (preferredSlot sz k).y acc = false :=
      (checkCoordinateCollision_eq_false _ _ _ _).2
        (fun c hc => hacc c hc k (le_refl k))
    have hpos : findAvailablePosition CoordinateManager.default
        (preferredSlot sz k).x (preferredSlot sz k).y acc (some sz) = preferredSlot sz k :=
      findAvailablePosition_of_free _ _ _ _ _ (hge k).1 (hge k).2 hfree
    show (setNodePos n (findAvailablePosition CoordinateManager.default
        (preferredSlot sz k).x (preferredSlot sz k).y acc (some sz)) ::
      (layoutStep CoordinateManager.default sz tl (k + 1)
        (addCoord acc (findAvailablePosition CoordinateManager.default
          (preferredSlot sz k).x (preferredSlot sz k).y acc (some sz)))).1) =
      setNodePos n (preferredSlot sz k) :: placedAt sz (k + 1) tl
  -- continue
    rw [hpos]
    congr 1
    apply ih
    intro c hc i hi
    rcases addCoord_mem acc (preferredSlot sz k) c hc with h1 | h1
    · exact hacc c h1 i (by omega)
    · rw [h1]
      exact hsep i k (by omega)

theorem placedAt_length (sz : SafeZone) :
    ∀ (l : List Node) (k : Nat), (placedAt sz k l).length = l.length := by
  intro l
  induction l with
  | nil => intro k; rfl
  | cons hd tl ih => intro k; simp [placedAt, ih (k + 1)]

theorem nodePos_setNodePos (n : Node) (c : Coord) : nodePos (setNodePos n c) = c := by
  cases c
  rfl

theorem placedAt_get (sz : SafeZone) :
    ∀ (l : List Node) (k : Nat) (i : Nat) (hi : i < (placedAt sz k l).length),
      (placedAt sz k l).get ⟨i, hi⟩ =
        setNodePos (l.get ⟨i, by rw [← placedAt_length sz l k]; exact hi⟩)
          (preferredSlot sz (k + i)) := by
  intro l
  induction l with
  | nil => intro k i hi; simp [placedAt] at hi
  | cons hd tl ih =>
    intro k i hi
    cases i with
    | zero => rfl
    | succ m =>
      show (placedAt sz (k + 1) tl).get ⟨m, _⟩ = _
      rw [ih (k + 1) m _]
      congr 2
      omega

/-- Claim C1: for every batch of new nodes laid out against every set of
pre-existing occupied coordinates, the batch placement (default
collision-free strategy, and the grid strategy, which shares its body)
puts node `i` at its row-major preferred slot, and the assigned positions
satisfy the 120×30-with-20-buffer rectangle test pairwise
(new-vs-new) and against every pre-existing occupied coordinate
(new-vs-existing).  Every preferred slot lies in the safe zone at least
150 px below the existing maximum Y and the slots are spaced 250/120 px
apart, so the clamped preferred position is always free: no position is
ever taken from the spiral search or its fallback, and every assigned
position — including any the fallback could have chosen — is
non-overlapping. -/
theorem c1_layout_no_overlap :
    ∀ (newNodes existingNodes : List Node),
      applyAutoLayout CoordinateManager.default newNodes existingNodes .collision_free =
        .ok (placedAt (calculateSafeZone (boundsOf existingNodes)) 0 newNodes) ∧
      applyAutoLayout CoordinateManager.default newNodes existingNodes .grid =
        .ok (placedAt (calculateSafeZone (boundsOf existingNodes)) 0 newNodes) ∧
      (∀ (i j : Nat)
        (hi : i < (placedAt (calculateSafeZone (boundsOf existingNodes)) 0 newNodes).length)
        (hj : j < (placedAt (calculateSafeZone (boundsOf existingNodes)) 0 newNodes).length),
        i ≠ j →
        overlapWithin CoordinateManager.default
          (nodePos ((placedAt (calculateSafeZone (boundsOf existingNodes)) 0 newNodes).get ⟨i, hi⟩))
          (nodePos ((placedAt (calculateSafeZone (boundsOf existingNodes)) 0 newNodes).get ⟨j, hj⟩))
          = false) ∧
      (∀ (i : Nat)
        (hi : i < (placedAt (calculateSafeZone (boundsOf existingNodes)) 0 newNodes).length)
        (c : Coord), c ∈ coordsOf existingNodes →
        overlapWithin CoordinateManager.default
          (nodePos ((placedAt (calculateSafeZone (boundsOf existingNodes)) 0 newNodes).get ⟨i, hi⟩))
          c = false) := by
  intro newNodes existingNodes
  have hsep : ∀ i j : Nat, i ≠ j →
      overlapWithin CoordinateManager.default
        (preferredSlot (calculateSafeZone (boundsOf existingNodes)) i)
        (preferredSlot (calculateSafeZone (boundsOf existingNodes)) j) = false :=
    fun i j hij => preferredSlot_sep _ (by norm_num [calculateSafeZone])
      (by norm_num [calculateSafeZone]) i j hij
  have hge : ∀ i : Nat,
      (calculateSafeZone (boundsOf existingNodes)).startX ≤
        (preferredSlot (calculateSafeZone (boundsOf existingNodes)) i).x ∧
      (calculateSafeZone (boundsOf existingNodes)).startY ≤
        (preferredSlot (calculateSafeZone (boundsOf existingNodes)) i).y :=
    fun i => preferredSlot_ge _ (by norm_num [calculateSafeZone])
      (by norm_num [calculateSafeZone]) i
  have hplace : (layoutStep CoordinateManager.default
      (calculateSafeZone (boundsOf existingNodes)) newNodes 0 (coordsOf existingNodes)).1 =
      placedAt (calculateSafeZone (boundsOf existingNodes)) 0 newNodes :=
    layoutStep_places _ hsep hge newNodes 0 (coordsOf existingNodes)
      (fun c hc i _ => slot_no_overlap_existing existingNodes i c hc)
  refine ⟨congrArg Except.ok hplace, congrArg Except.ok hplace, ?_, ?_⟩
  · intro i j hi hj hij
    rw [placedAt_get, placedAt_get, nodePos_setNodePos, nodePos_setNodePos]
    simpa using hsep i j hij
  · intro i hi c hc
    rw [placedAt_get, nodePos_setNodePos]
    exact slot_no_overlap_existing existingNodes (0 + i) c hc

/-- Witness for C1 at the spec's collision scenario: two existing occupied
points 10 px apart, a batch of two new nodes; the batch placement
succeeds and the first two placed positions overlap neither each other
nor the occupied point (300, 400). -/
theorem c1_layout_no_overlap_witness :
    applyAutoLayout CoordinateManager.default [nodeA, nodeB] [exP, exQ] .collision_free =
      .ok (placedAt (calculateSafeZone (boundsOf [exP, exQ])) 0 [nodeA, nodeB]) ∧
    overlapWithin CoordinateManager.default
      (nodePos ((placedAt (calculateSafeZone (boundsOf [exP, exQ])) 0
        [nodeA, nodeB]).get ⟨0, by decide⟩))
      (nodePos ((placedAt (calculateSafeZone (boundsOf [exP, exQ])) 0
        [nodeA, nodeB]).get ⟨1, by decide⟩)) = false ∧
    overlapWithin CoordinateManager.default
      (nodePos ((placedAt (calculateSafeZone (boundsOf [exP, exQ])) 0
        [nodeA, nodeB]).get ⟨0, by decide⟩)) ⟨300, 400⟩ = false :=
  ⟨(c1_layout_no_overlap [nodeA, nodeB] [exP, exQ]).1,
   (c1_layout_no_overlap [nodeA, nodeB] [exP, exQ]).2.2.1 0 1 (by decide) (by decide)
     (by decide),
   (c1_layout_no_overlap [nodeA, nodeB] [exP, exQ]).2.2.2 0 (by decide) ⟨300, 400⟩
     (by decide)⟩

end NodeRed
